import Mathlib

/-!
Verification of the player / modifier-accounting model of
`src/wouso/core/user/models.py`.

The Django ORM state is embedded shallowly: each model table is a list of
records inside a `DB` structure.  `objects.get(...)` becomes `List.find?`
(faithful to `get` whenever the queried key is unique in the table, which the
`unique_together` constraints guarantee for the id-keyed queries; the
name-keyed queries of `has_modifier` additionally need name-uniqueness, stated
where used as `wfKeys`), `.save()` rewrites the record with the same key,
`.delete()` filters it out, and `objects.create(...)` appends (failing, as the
database would, when it would violate a `unique_together` constraint).
Python exceptions become an explicit result type `PyResult` that carries the
database state reached when the exception propagates.  `God` is an external
collaborator: `God.get_artifact_for_modifier` is a function parameter, and
`God.post_cast` (pure side effect outside this data model) is modelled as
succeeding.
-/

namespace Wouso

/-- An artifact (`wouso.core.magic.models.Artifact`): pk plus its name, the
only fields the accounting code reads. -/
structure Artifact where
  id : Nat
  name : String
deriving DecidableEq

/-- A spell (`wouso.core.magic.models.Spell`): pk plus its name. -/
structure Spell where
  id : Nat
  name : String
deriving DecidableEq

/-- PlayerArtifactAmount: ties artifact and amount to the owner player
(players are identified by their pk). -/
structure PlayerArtifactAmount where
  player : Nat
  artifact : Artifact
  amount : Int
deriving DecidableEq

/-- PlayerSpellAmount: ties spells to the collecting player. -/
structure PlayerSpellAmount where
  player : Nat
  spell : Spell
  amount : Int
deriving DecidableEq

/-- PlayerSpellDue: ties spell, casting player and expiry to the victim
player.  The model has no `amount` field. -/
structure PlayerSpellDue where
  player : Nat
  spell : Spell
  source : Nat
  due : Nat
deriving DecidableEq

/-- The persistent state: the three amount / effect tables. -/
structure DB where
  artifactAmounts : List PlayerArtifactAmount
  spellAmounts : List PlayerSpellAmount
  spellDues : List PlayerSpellDue
deriving DecidableEq

/-- PlayerGroup: pk, name, class rank, optional parent pk. -/
structure PlayerGroup where
  id : Nat
  name : String
  gclass : Int
  parent : Option Nat
deriving DecidableEq

/-- PlayerGroup.sisters: `parent.children.exclude(id=self.id)` when a parent
is set, else `PlayerGroup.objects.filter(gclass=self.gclass).exclude(id=self.id)`
(the per-instance `_sisters` cache only memoises this value; a fresh instance
computes exactly this). -/
def sisters (groups : List PlayerGroup) (g : PlayerGroup) : List PlayerGroup :=
  match g.parent with
  | some pid => groups.filter (fun h => h.parent == some pid && h.id != g.id)
  | none => groups.filter (fun h => h.gclass == g.gclass && h.id != g.id)

/-- `PlayerArtifactAmount.objects.get(player=self, artifact__name=modifier)`. -/
def getArtifactAmount (db : DB) (p : Nat) (m : String) : Option PlayerArtifactAmount :=
  db.artifactAmounts.find? (fun r => r.player == p && r.artifact.name == m)

/-- `PlayerSpellDue.objects.get(player=self, spell__name=modifier)`. -/
def getSpellDue (db : DB) (p : Nat) (m : String) : Option PlayerSpellDue :=
  db.spellDues.find? (fun r => r.player == p && r.spell.name == m)

/-- `PlayerSpellAmount.objects.get(player=p, spell=spell)` (pk equality). -/
def getSpellAmount (db : DB) (p : Nat) (s : Spell) : Option PlayerSpellAmount :=
  db.spellAmounts.find? (fun r => r.player == p && r.spell.id == s.id)

/-- Result of `Player.has_modifier`: the artifact-amount record, the
spell-due record, or Python's `False`. -/
inductive HasModifierResult where
  | artifact (r : PlayerArtifactAmount)
  | due (r : PlayerSpellDue)
  | notFound
deriving DecidableEq

/-- Player.has_modifier: try the artifact amount, then the active spell due,
else return False. -/
def has_modifier (db : DB) (p : Nat) (m : String) : HasModifierResult :=
  match getArtifactAmount db p m with
  | some r => .artifact r
  | none =>
    match getSpellDue db p m with
    | some r => .due r
    | none => .notFound

/-- The Python exceptions the accounting code can raise. -/
inductive PyError where
  | insufficientAmount
  | attributeError
deriving DecidableEq

/-- Outcome of an operation: a returned value, or a propagating exception;
either way the database state reached is carried along (an exception does not
roll back writes already saved). -/
inductive PyResult (α : Type) where
  | ok (val : α) (db : DB)
  | exn (e : PyError) (db : DB)
deriving DecidableEq

/-- The database state an operation left behind, whether it returned or
raised. -/
def PyResult.db {α : Type} : PyResult α → DB
  | .ok _ d => d
  | .exn _ d => d

/-- `paamount.save()`: rewrite the record with `r`'s (player, artifact) key. -/
def saveArtifactAmount (db : DB) (r : PlayerArtifactAmount) : DB :=
  let l := db.artifactAmounts.map
    (fun x => if x.player == r.player && x.artifact == r.artifact then r else x)
  { db with artifactAmounts := l }

/-- `paamount.delete()`: drop the record with `r`'s (player, artifact) key. -/
def deleteArtifactAmount (db : DB) (r : PlayerArtifactAmount) : DB :=
  let l := db.artifactAmounts.filter
    (fun x => !(x.player == r.player && x.artifact == r.artifact))
  { db with artifactAmounts := l }

/-- `psamount.save()`: rewrite the record with `r`'s (player, spell) key. -/
def saveSpellAmount (db : DB) (r : PlayerSpellAmount) : DB :=
  let l := db.spellAmounts.map
    (fun x => if x.player == r.player && x.spell.id == r.spell.id then r else x)
  { db with spellAmounts := l }

/-- `psamount.delete()`: drop the record with `r`'s (player, spell) key. -/
def deleteSpellAmount (db : DB) (r : PlayerSpellAmount) : DB :=
  let l := db.spellAmounts.filter
    (fun x => !(x.player == r.player && x.spell.id == r.spell.id))
  { db with spellAmounts := l }

/-- Player.use_modifier: subtract `a` of modifier `m` from player `p`'s
collection.  `has_modifier` may return the spell-due record or `False`, on
which reading `.amount` raises AttributeError; with the artifact record,
`amount > paamount.amount` raises InsufficientAmount, otherwise the record is
decremented and deleted at exactly zero. -/
def use_modifier (db : DB) (p : Nat) (m : String) (a : Int) :
    PyResult PlayerArtifactAmount :=
  match has_modifier db p m with
  | .artifact paamount =>
    if a > paamount.amount then .exn .insufficientAmount db
    else
      let r := { paamount with amount := paamount.amount - a }
      if r.amount == 0 then .ok r (deleteArtifactAmount db r)
      else .ok r (saveArtifactAmount db r)
  | _ => .exn .attributeError db

/-- Player.give_modifier: no-op (returns None) for `amount <= 0`; creates a
new record with the God-resolved artifact when `has_modifier` is falsy;
otherwise increments whatever `has_modifier` returned — an AttributeError when
that is the spell-due record. -/
def give_modifier (god : String → Nat → Artifact) (db : DB) (p : Nat)
    (m : String) (a : Int) : PyResult (Option PlayerArtifactAmount) :=
  if a ≤ 0 then .ok none db
  else
    match has_modifier db p m with
    | .notFound =>
      let r : PlayerArtifactAmount := ⟨p, god m p, a⟩
      .ok (some r) { db with artifactAmounts := db.artifactAmounts ++ [r] }
    | .artifact paamount =>
      let r := { paamount with amount := paamount.amount + a }
      .ok (some r) (saveArtifactAmount db r)
    | .due _ => .exn .attributeError db

/-- Player.add_spell: create a collection record (Django default amount 1) on
first acquisition, else increment and save. -/
def add_spell (db : DB) (p : Nat) (s : Spell) : DB :=
  match getSpellAmount db p s with
  | none => { db with spellAmounts := db.spellAmounts ++ [⟨p, s, 1⟩] }
  | some psamount => saveSpellAmount db { psamount with amount := psamount.amount + 1 }

/-- Player.cast_spell (self = `target`): requires the source to hold the
spell with positive amount (DoesNotExist / AssertionError return False);
`PlayerSpellDue.objects.create` fails on the (player, spell) unique constraint
when the target already has the spell active, caught by the bare `except` with
no writes done; otherwise the due record is created, `God.post_cast` runs
(external, modelled as succeeding), and the source's amount is decremented,
the record being deleted at zero. -/
def cast_spell (db : DB) (target : Nat) (s : Spell) (source : Nat) (due : Nat) :
    Bool × DB :=
  match getSpellAmount db source s with
  | none => (false, db)
  | some psamount =>
    if psamount.amount ≤ 0 then (false, db)
    else if (db.spellDues.find? (fun r => r.player == target && r.spell.id == s.id)).isSome
    then (false, db)
    else
      let db1 := { db with spellDues := db.spellDues ++ [⟨target, s, source, due⟩] }
      let r := { psamount with amount := psamount.amount - 1 }
      if r.amount == 0 then (true, deleteSpellAmount db1 r)
      else (true, saveSpellAmount db1 r)

/-- The player's current artifact holding of modifier `m`: the amount on the
record when one exists, else 0. -/
def artifactHolding (db : DB) (p : Nat) (m : String) : Int :=
  match getArtifactAmount db p m with
  | some r => r.amount
  | none => 0

/-- The source's current collected amount of spell `s`, 0 when no record. -/
def spellHolding (db : DB) (p : Nat) (s : Spell) : Int :=
  match getSpellAmount db p s with
  | some r => r.amount
  | none => 0

/-- Key well-formedness: the name-keyed lookups of `has_modifier` hit at most
one record, and collection records are unique per (player, spell). -/
abbrev wfKeys (db : DB) : Prop :=
  db.artifactAmounts.Pairwise
    (fun x y => (x.player, x.artifact.name) ≠ (y.player, y.artifact.name)) ∧
  db.spellAmounts.Pairwise
    (fun x y => (x.player, x.spell.id) ≠ (y.player, y.spell.id)) ∧
  db.spellDues.Pairwise
    (fun x y => (x.player, x.spell.name) ≠ (y.player, y.spell.name))

/-- Amount invariant: every persisted amount record holds at least 1. -/
abbrev wfAmounts (db : DB) : Prop :=
  (∀ r ∈ db.artifactAmounts, 1 ≤ r.amount) ∧
  (∀ r ∈ db.spellAmounts, 1 ≤ r.amount)

/-- A sample artifact, used in concrete evaluations. -/
def aShield : Artifact := ⟨1, "shield"⟩

/-- A sample spell, used in concrete evaluations. -/
def sFrost : Spell := ⟨1, "frost"⟩

/-- The empty database. -/
def dbEmpty : DB := ⟨[], [], []⟩

/-- Player 7 holds one shield artifact. -/
def dbShield : DB := ⟨[⟨7, aShield, 1⟩], [], []⟩

/-- Player 7 is under an active frost spell cast by player 3 (no artifact
record). -/
def dbFrostDue : DB := ⟨[], [], [⟨7, sFrost, 3, 5⟩]⟩

/-- Player 2 has collected one frost spell. -/
def dbFrostStock : DB := ⟨[], [⟨2, sFrost, 1⟩], []⟩

/-- Player 2 has collected one frost spell and player 3 already has frost
active (cast by player 5). -/
def dbFrostStockDue : DB := ⟨[], [⟨2, sFrost, 1⟩], [⟨3, sFrost, 5, 99⟩]⟩

/-- Player 7 holds one shield artifact and is also under an active shield
spell: both `has_modifier` candidates exist. -/
def dbShieldBoth : DB := ⟨[⟨7, aShield, 1⟩], [], [⟨7, ⟨4, "shield"⟩, 3, 5⟩]⟩

/-- A God stub resolving a modifier name to an artifact with that name. -/
def godStd : String → Nat → Artifact := fun m _ => ⟨9, m⟩

/-- A root group of class rank 2. -/
def gRootA : PlayerGroup := ⟨1, "a", 2, none⟩

/-- Another root group of class rank 2. -/
def gRootB : PlayerGroup := ⟨2, "b", 2, none⟩

/-- A child group (parent set) of class rank 2. -/
def gChildC : PlayerGroup := ⟨3, "c", 2, some 1⟩

/-!
General list lemmas about `find?` composed with the record-update and
record-delete shapes used by `save` / `delete`, and about key-unique lists.
-/

/-- Updating the records selected by `c` to `r1` moves a successful `find?`
from `r0` to `r1`, provided `c` selects `r0`, `r1` still satisfies the query
and everything `c` selects satisfied the query. -/
theorem find?_map_if {α : Type} (q c : α → Bool) (r1 : α) (l : List α) (r0 : α)
    (hf : l.find? q = some r0) (hc0 : c r0 = true) (hq1 : q r1 = true)
    (hcq : ∀ x, c x = true → q x = true) :
    (l.map (fun x => if c x then r1 else x)).find? q = some r1 := by
  induction l with
  | nil => simp at hf
  | cons h t ih =>
    by_cases hqh : q h = true
    · rw [List.find?_cons_of_pos _ hqh] at hf
      injection hf with hf
      subst hf
      rw [List.map_cons, if_pos hc0, List.find?_cons_of_pos _ hq1]
    · have hch : c h = false := by
        cases hc : c h with
        | false => rfl
        | true => exact absurd (hcq h hc) hqh
      rw [List.find?_cons_of_neg _ hqh] at hf
      rw [List.map_cons, if_neg (by simp [hch]), List.find?_cons_of_neg _ hqh]
      exact ih hf

/-- Dropping the records selected by `c` makes `find?` fail whenever the
query implies `c`. -/
theorem find?_filter_out {α : Type} (q c : α → Bool) (l : List α)
    (hqc : ∀ x, q x = true → c x = true) :
    (l.filter (fun x => !(c x))).find? q = none := by
  rw [List.find?_eq_none]
  intro x hx hq
  have hc := (List.mem_filter.1 hx).2
  rw [hqc x hq] at hc
  simp at hc

/-- In a list whose keys are pairwise distinct, two members with the same key
are equal. -/
theorem eq_of_key_eq {α β : Type} (key : α → β) (l : List α)
    (hp : l.Pairwise (fun x y => key x ≠ key y)) :
    ∀ x ∈ l, ∀ y ∈ l, key x = key y → x = y := by
  intro x hx y hy hxy
  by_contra hne
  have hsymm : Symmetric (fun x y : α => key x ≠ key y) := by
    intro a b hab h
    exact hab h.symm
  exact hp.forall hsymm hx hy hne hxy

/-- Over a list where at most one element satisfies the query, `find?`
succeeds with `r` exactly when `r` is a member satisfying the query. -/
theorem find?_eq_some_iff_unique {α : Type} (q : α → Bool) (l : List α) (r : α)
    (huniq : ∀ x ∈ l, ∀ y ∈ l, q x = true → q y = true → x = y) :
    l.find? q = some r ↔ (r ∈ l ∧ q r = true) := by
  constructor
  · intro h
    exact ⟨List.mem_of_find?_eq_some h, List.find?_some h⟩
  · rintro ⟨hm, hq⟩
    obtain ⟨r', hr'⟩ := Option.isSome_iff_exists.1
      (List.find?_isSome.2 ⟨r, hm, hq⟩)
    rw [hr',
      huniq r' (List.mem_of_find?_eq_some hr') r hm (List.find?_some hr') hq]

/-- A pointwise property survives the `save`-style conditional map when the
new record satisfies it. -/
theorem forall_map_if {α : Type} (P : α → Prop) (c : α → Bool) (r : α)
    (l : List α) (hl : ∀ x ∈ l, P x) (hr : P r) :
    ∀ x ∈ l.map (fun y => if c y then r else y), P x := by
  intro x hx
  obtain ⟨y, hy, hxy⟩ := List.mem_map.1 hx
  by_cases hc : c y = true
  · rw [if_pos hc] at hxy
    exact hxy ▸ hr
  · rw [if_neg hc] at hxy
    exact hxy ▸ hl y hy

/-- A pointwise property survives filtering. -/
theorem forall_filter {α : Type} (P : α → Prop) (f : α → Bool) (l : List α)
    (hl : ∀ x ∈ l, P x) : ∀ x ∈ l.filter f, P x :=
  fun x hx => hl x (List.mem_filter.1 hx).1

/-!
Claim theorems.
-/

/-- Claim C8: give_modifier with amount ≤ 0 is a no-op — it returns None and
leaves the database untouched. -/
theorem give_modifier_nonpositive_noop (god : String → Nat → Artifact)
    (db : DB) (p : Nat) (m : String) (a : Int) (ha : a ≤ 0) :
    give_modifier god db p m a = .ok none db := by
  simp [give_modifier, ha]

/-- Witness for C8 at a concrete input. -/
theorem give_modifier_nonpositive_noop_witness :
    (0 : Int) ≤ 0 ∧ give_modifier godStd dbShield 7 "shield" 0 = .ok none dbShield :=
  ⟨by decide, give_modifier_nonpositive_noop godStd dbShield 7 "shield" 0 (by decide)⟩

/-- Claim C9: when the only match for the modifier name is an active
spell-due record, both give_modifier (with positive amount) and use_modifier
read the missing `amount` attribute of the PlayerSpellDue and fail with an
AttributeError, leaving the state unchanged. -/
theorem modifier_ops_attribute_error_on_due (god : String → Nat → Artifact)
    (db : DB) (p : Nat) (m : String) (a : Int) (d : PlayerSpellDue)
    (h1 : getArtifactAmount db p m = none) (h2 : getSpellDue db p m = some d)
    (ha : 0 < a) :
    give_modifier god db p m a = .exn .attributeError db ∧
    use_modifier db p m a = .exn .attributeError db := by
  have hm : has_modifier db p m = .due d := by
    simp [has_modifier, h1, h2]
  refine ⟨?_, ?_⟩
  · rw [give_modifier, if_neg (not_le.2 ha), hm]
  · rw [use_modifier, hm]

/-- Witness for C9 at a concrete input. -/
theorem modifier_ops_attribute_error_on_due_witness :
    getArtifactAmount dbFrostDue 7 "frost" = none ∧
    getSpellDue dbFrostDue 7 "frost" = some ⟨7, sFrost, 3, 5⟩ ∧
    (0 : Int) < 1 ∧
    give_modifier godStd dbFrostDue 7 "frost" 1 = .exn .attributeError dbFrostDue ∧
    use_modifier dbFrostDue 7 "frost" 1 = .exn .attributeError dbFrostDue := by
  refine ⟨by decide, by decide, by decide, ?_⟩
  exact modifier_ops_attribute_error_on_due godStd dbFrostDue 7 "frost" 1
    ⟨7, sFrost, 3, 5⟩ (by decide) (by decide) (by decide)

/-- Claim C5: cast_spell returns false and changes nothing when the source
holds no stock of the spell — no collection record, or one with a
non-positive amount (the assertion guard). -/
theorem cast_spell_no_stock_fails (db : DB) (tgt : Nat) (s : Spell)
    (src du : Nat)
    (h : getSpellAmount db src s = none ∨
      ∃ r, getSpellAmount db src s = some r ∧ r.amount ≤ 0) :
    cast_spell db tgt s src du = (false, db) := by
  rcases h with h | ⟨r, hr, hle⟩
  · rw [cast_spell, h]
  · rw [cast_spell, hr]
    simp [hle]

/-- Witness for C5 at a concrete input. -/
theorem cast_spell_no_stock_fails_witness :
    (getSpellAmount dbEmpty 2 sFrost = none ∨
      ∃ r, getSpellAmount dbEmpty 2 sFrost = some r ∧ r.amount ≤ 0) ∧
    cast_spell dbEmpty 3 sFrost 2 10 = (false, dbEmpty) :=
  ⟨Or.inl (by decide),
    cast_spell_no_stock_fails dbEmpty 3 sFrost 2 10 (Or.inl (by decide))⟩

/-- Claim C10: when the target already has an active due record for the
spell, the (player, spell) unique constraint makes the create fail even
though the source has stock; cast_spell returns false and the database is
unchanged. -/
theorem cast_spell_duplicate_due_fails (db : DB) (tgt : Nat) (s : Spell)
    (src du : Nat) (r : PlayerSpellAmount) (d : PlayerSpellDue)
    (h1 : getSpellAmount db src s = some r) (hpos : 1 ≤ r.amount)
    (h2 : db.spellDues.find? (fun x => x.player == tgt && x.spell.id == s.id) = some d) :
    cast_spell db tgt s src du = (false, db) := by
  rw [cast_spell, h1]
  simp [not_le.2 (show (0 : Int) < r.amount from hpos), h2]

/-- Witness for C10 at a concrete input. -/
theorem cast_spell_duplicate_due_fails_witness :
    getSpellAmount dbFrostStockDue 2 sFrost = some ⟨2, sFrost, 1⟩ ∧
    (1 : Int) ≤ 1 ∧
    dbFrostStockDue.spellDues.find?
      (fun x => x.player == 3 && x.spell.id == sFrost.id) = some ⟨3, sFrost, 5, 99⟩ ∧
    cast_spell dbFrostStockDue 3 sFrost 2 10 = (false, dbFrostStockDue) := by
  refine ⟨by decide, by decide, by decide, ?_⟩
  exact cast_spell_duplicate_due_fails dbFrostStockDue 3 sFrost 2 10
    ⟨2, sFrost, 1⟩ ⟨3, sFrost, 5, 99⟩ (by decide) (by decide) (by decide)

/-- Claim C1, counterexample: with no amount record at all (holding zero),
use_modifier does not raise InsufficientAmount — `has_modifier` returns False
and reading `.amount` on it raises an AttributeError instead. -/
theorem use_modifier_zero_holding_cex :
    use_modifier dbEmpty 0 "shield" 1 = .exn .attributeError dbEmpty ∧
    use_modifier dbEmpty 0 "shield" 1 ≠ .exn .insufficientAmount dbEmpty := by
  decide

/-- Claim C1, amended: when an artifact-amount record for the modifier exists
and the requested amount strictly exceeds its holding, use_modifier raises
InsufficientAmount and leaves the database unchanged. -/
theorem use_modifier_insufficient (db : DB) (p : Nat) (m : String) (a : Int)
    (r : PlayerArtifactAmount) (h : getArtifactAmount db p m = some r)
    (ha : r.amount < a) :
    use_modifier db p m a = .exn .insufficientAmount db := by
  have hm : has_modifier db p m = .artifact r := by
    simp [has_modifier, h]
  rw [use_modifier, hm]
  simp [ha]

/-- Witness for the amended C1 at a concrete input. -/
theorem use_modifier_insufficient_witness :
    getArtifactAmount dbShield 7 "shield" = some ⟨7, aShield, 1⟩ ∧
    (⟨7, aShield, 1⟩ : PlayerArtifactAmount).amount < 2 ∧
    use_modifier dbShield 7 "shield" 2 = .exn .insufficientAmount dbShield := by
  refine ⟨by decide, by decide, ?_⟩
  exact use_modifier_insufficient dbShield 7 "shield" 2 ⟨7, aShield, 1⟩
    (by decide) (by decide)

/-- Claim C2, counterexample: for a root group of class rank 2, `sisters`
also returns a group with a parent set — the root-case query filters on
gclass only, not on being a root group. -/
theorem sisters_root_nonroot_cex :
    sisters [gRootA, gRootB, gChildC] gRootA = [gRootB, gChildC] ∧
    gChildC.parent ≠ none := by
  decide

/-- Claim C2, amended: for a root group g, `sisters` returns exactly the
other groups — root or not — whose class rank equals g's, excluding g
itself. -/
theorem sisters_root_same_gclass (groups : List PlayerGroup)
    (g h : PlayerGroup) (hg : g.parent = none) :
    h ∈ sisters groups g ↔ (h ∈ groups ∧ h.gclass = g.gclass ∧ h.id ≠ g.id) := by
  rw [sisters, hg]
  simp [List.mem_filter, Bool.and_eq_true, beq_iff_eq, bne_iff_ne, and_assoc]

/-- Witness for the amended C2 at a concrete input. -/
theorem sisters_root_same_gclass_witness :
    gRootA.parent = none ∧
    (gRootB ∈ sisters [gRootA, gRootB, gChildC] gRootA ↔
      (gRootB ∈ [gRootA, gRootB, gChildC] ∧ gRootB.gclass = gRootA.gclass ∧
        gRootB.id ≠ gRootA.id)) :=
  ⟨rfl, sisters_root_same_gclass [gRootA, gRootB, gChildC] gRootA gRootB rfl⟩

/-- Claim C7: has_modifier returns the player's artifact-amount record for
the modifier name when one exists, otherwise the player's spell-due record
when one exists, otherwise the not-found sentinel — the artifact record is
preferred whenever both exist (stated over key-well-formed states, where the
`objects.get` calls are exact). -/
theorem has_modifier_characterisation (db : DB) (p : Nat) (m : String)
    (hk : wfKeys db) :
    (∀ r, has_modifier db p m = .artifact r ↔
      (r ∈ db.artifactAmounts ∧ r.player = p ∧ r.artifact.name = m)) ∧
    (∀ d, has_modifier db p m = .due d ↔
      ((∀ r ∈ db.artifactAmounts, r.player = p → r.artifact.name ≠ m) ∧
        d ∈ db.spellDues ∧ d.player = p ∧ d.spell.name = m)) ∧
    (has_modifier db p m = .notFound ↔
      ((∀ r ∈ db.artifactAmounts, r.player = p → r.artifact.name ≠ m) ∧
        (∀ d ∈ db.spellDues, d.player = p → d.spell.name ≠ m))) := by
  have huniqA : ∀ x ∈ db.artifactAmounts, ∀ y ∈ db.artifactAmounts,
      (x.player == p && x.artifact.name == m) = true →
      (y.player == p && y.artifact.name == m) = true → x = y := by
    intro x hx y hy hqx hqy
    simp only [Bool.and_eq_true, beq_iff_eq] at hqx hqy
    refine eq_of_key_eq (fun z => (z.player, z.artifact.name)) _ hk.1 x hx y hy ?_
    show (x.player, x.artifact.name) = (y.player, y.artifact.name)
    rw [hqx.1, hqx.2, hqy.1, hqy.2]
  have huniqD : ∀ x ∈ db.spellDues, ∀ y ∈ db.spellDues,
      (x.player == p && x.spell.name == m) = true →
      (y.player == p && y.spell.name == m) = true → x = y := by
    intro x hx y hy hqx hqy
    simp only [Bool.and_eq_true, beq_iff_eq] at hqx hqy
    refine eq_of_key_eq (fun z => (z.player, z.spell.name)) _ hk.2.2 x hx y hy ?_
    show (x.player, x.spell.name) = (y.player, y.spell.name)
    rw [hqx.1, hqx.2, hqy.1, hqy.2]
  have hartSome : ∀ r, getArtifactAmount db p m = some r ↔
      (r ∈ db.artifactAmounts ∧ r.player = p ∧ r.artifact.name = m) := by
    intro r
    rw [getArtifactAmount, find?_eq_some_iff_unique _ _ _ huniqA]
    simp [Bool.and_eq_true, beq_iff_eq, and_assoc]
  have hartNone : getArtifactAmount db p m = none ↔
      ∀ r ∈ db.artifactAmounts, r.player = p → r.artifact.name ≠ m := by
    rw [getArtifactAmount, List.find?_eq_none]
    simp [Bool.and_eq_true, beq_iff_eq]
  have hdueSome : ∀ d, getSpellDue db p m = some d ↔
      (d ∈ db.spellDues ∧ d.player = p ∧ d.spell.name = m) := by
    intro d
    rw [getSpellDue, find?_eq_some_iff_unique _ _ _ huniqD]
    simp [Bool.and_eq_true, beq_iff_eq, and_assoc]
  have hdueNone : getSpellDue db p m = none ↔
      ∀ d ∈ db.spellDues, d.player = p → d.spell.name ≠ m := by
    rw [getSpellDue, List.find?_eq_none]
    simp [Bool.and_eq_true, beq_iff_eq]
  have hmArt : ∀ r, has_modifier db p m = .artifact r ↔
      getArtifactAmount db p m = some r := by
    intro r
    rw [has_modifier]
    cases hga : getArtifactAmount db p m with
    | some r0 => simp
    | none => cases hgd : getSpellDue db p m <;> simp
  have hmDue : ∀ d, has_modifier db p m = .due d ↔
      (getArtifactAmount db p m = none ∧ getSpellDue db p m = some d) := by
    intro d
    rw [has_modifier]
    cases hga : getArtifactAmount db p m with
    | some r0 => simp
    | none => cases hgd : getSpellDue db p m <;> simp
  have hmNF : has_modifier db p m = .notFound ↔
      (getArtifactAmount db p m = none ∧ getSpellDue db p m = none) := by
    rw [has_modifier]
    cases hga : getArtifactAmount db p m with
    | some r0 => simp
    | none => cases hgd : getSpellDue db p m <;> simp
  refine ⟨?_, ?_, ?_⟩
  · intro r
    rw [hmArt r, hartSome r]
  · intro d
    rw [hmDue d, hartNone, hdueSome d]
  · rw [hmNF, hartNone, hdueNone]

/-- Witness for C7 at a concrete input where both an artifact record and an
active spell due exist for the same name: the artifact record is returned. -/
theorem has_modifier_characterisation_witness :
    wfKeys dbShieldBoth ∧
    has_modifier dbShieldBoth 7 "shield" = .artifact ⟨7, aShield, 1⟩ := by
  refine ⟨by decide, ?_⟩
  exact ((has_modifier_characterisation dbShieldBoth 7 "shield"
    (by decide)).1 ⟨7, aShield, 1⟩).mpr (by decide)

/-!
Preservation of the amount invariant by each write shape.
-/

/-- Saving a record with positive amount keeps the amount invariant. -/
theorem wfAmounts_save_artifact (db : DB) (r : PlayerArtifactAmount)
    (h : wfAmounts db) (hr : 1 ≤ r.amount) :
    wfAmounts (saveArtifactAmount db r) := by
  refine ⟨?_, ?_⟩
  · show ∀ x ∈ db.artifactAmounts.map
        (fun y => if y.player == r.player && y.artifact == r.artifact then r else y),
      1 ≤ x.amount
    exact forall_map_if _ _ r db.artifactAmounts h.1 hr
  · exact h.2

/-- Deleting an artifact record keeps the amount invariant. -/
theorem wfAmounts_delete_artifact (db : DB) (r : PlayerArtifactAmount)
    (h : wfAmounts db) : wfAmounts (deleteArtifactAmount db r) := by
  refine ⟨?_, ?_⟩
  · show ∀ x ∈ db.artifactAmounts.filter
        (fun y => !(y.player == r.player && y.artifact == r.artifact)),
      1 ≤ x.amount
    exact forall_filter _ _ db.artifactAmounts h.1
  · exact h.2

/-- Saving a spell record with positive amount keeps the amount invariant. -/
theorem wfAmounts_save_spell (db : DB) (r : PlayerSpellAmount)
    (h : wfAmounts db) (hr : 1 ≤ r.amount) :
    wfAmounts (saveSpellAmount db r) := by
  refine ⟨?_, ?_⟩
  · exact h.1
  · show ∀ x ∈ db.spellAmounts.map
        (fun y => if y.player == r.player && y.spell.id == r.spell.id then r else y),
      1 ≤ x.amount
    exact forall_map_if _ _ r db.spellAmounts h.2 hr

/-- Deleting a spell record keeps the amount invariant. -/
theorem wfAmounts_delete_spell (db : DB) (r : PlayerSpellAmount)
    (h : wfAmounts db) : wfAmounts (deleteSpellAmount db r) := by
  refine ⟨?_, ?_⟩
  · exact h.1
  · show ∀ x ∈ db.spellAmounts.filter
        (fun y => !(y.player == r.player && y.spell.id == r.spell.id)),
      1 ≤ x.amount
    exact forall_filter _ _ db.spellAmounts h.2

/-!
Step lemmas: the exact outcome of each operation under explicit branch
conditions, read off the code.
-/

/-- use_modifier when the subtraction lands exactly on zero: the record is
deleted. -/
theorem use_modifier_delete_step (db : DB) (p : Nat) (m : String) (a : Int)
    (r : PlayerArtifactAmount) (hga : getArtifactAmount db p m = some r)
    (hle : ¬a > r.amount) (hz : r.amount - a = 0) :
    use_modifier db p m a = .ok { r with amount := r.amount - a }
      (deleteArtifactAmount db { r with amount := r.amount - a }) := by
  have hmr : has_modifier db p m = .artifact r := by
    simp [has_modifier, hga]
  simp [use_modifier, hmr, hle, hz]

/-- use_modifier when the subtraction leaves a nonzero amount: the record is
saved. -/
theorem use_modifier_save_step (db : DB) (p : Nat) (m : String) (a : Int)
    (r : PlayerArtifactAmount) (hga : getArtifactAmount db p m = some r)
    (hle : ¬a > r.amount) (hz : r.amount - a ≠ 0) :
    use_modifier db p m a = .ok { r with amount := r.amount - a }
      (saveArtifactAmount db { r with amount := r.amount - a }) := by
  have hmr : has_modifier db p m = .artifact r := by
    simp [has_modifier, hga]
  simp [use_modifier, hmr, hle, hz]

/-- give_modifier when nothing matches: a fresh record with the God-resolved
artifact is created. -/
theorem give_modifier_create_step (god : String → Nat → Artifact) (db : DB)
    (p : Nat) (m : String) (a : Int) (ha : ¬a ≤ 0)
    (hm : has_modifier db p m = .notFound) :
    give_modifier god db p m a = .ok (some ⟨p, god m p, a⟩)
      { db with artifactAmounts := db.artifactAmounts ++ [⟨p, god m p, a⟩] } := by
  simp [give_modifier, ha, hm]

/-- give_modifier when an artifact record exists: it is incremented and
saved. -/
theorem give_modifier_increment_step (god : String → Nat → Artifact) (db : DB)
    (p : Nat) (m : String) (a : Int) (r : PlayerArtifactAmount) (ha : ¬a ≤ 0)
    (hga : getArtifactAmount db p m = some r) :
    give_modifier god db p m a = .ok (some { r with amount := r.amount + a })
      (saveArtifactAmount db { r with amount := r.amount + a }) := by
  have hmr : has_modifier db p m = .artifact r := by
    simp [has_modifier, hga]
  simp [give_modifier, ha, hmr]

/-- add_spell on first acquisition: a record with amount 1 is created. -/
theorem add_spell_create_step (db : DB) (p : Nat) (s : Spell)
    (h : getSpellAmount db p s = none) :
    add_spell db p s = { db with spellAmounts := db.spellAmounts ++ [⟨p, s, 1⟩] } := by
  simp [add_spell, h]

/-- add_spell on an existing record: incremented and saved. -/
theorem add_spell_increment_step (db : DB) (p : Nat) (s : Spell)
    (r : PlayerSpellAmount) (h : getSpellAmount db p s = some r) :
    add_spell db p s = saveSpellAmount db { r with amount := r.amount + 1 } := by
  simp [add_spell, h]

/-- cast_spell when the decrement lands on zero: due record appended, source
record deleted. -/
theorem cast_spell_delete_step (db : DB) (tgt : Nat) (s : Spell)
    (src du : Nat) (r : PlayerSpellAmount)
    (hgs : getSpellAmount db src s = some r) (hpos : ¬r.amount ≤ 0)
    (hdup : db.spellDues.find? (fun x => x.player == tgt && x.spell.id == s.id) = none)
    (hz : r.amount - 1 = 0) :
    cast_spell db tgt s src du = (true,
      deleteSpellAmount { db with spellDues := db.spellDues ++ [⟨tgt, s, src, du⟩] }
        { r with amount := r.amount - 1 }) := by
  simp [cast_spell, hgs, hpos, hdup, hz]

/-- cast_spell when the decrement leaves stock: due record appended, source
record saved. -/
theorem cast_spell_save_step (db : DB) (tgt : Nat) (s : Spell)
    (src du : Nat) (r : PlayerSpellAmount)
    (hgs : getSpellAmount db src s = some r) (hpos : ¬r.amount ≤ 0)
    (hdup : db.spellDues.find? (fun x => x.player == tgt && x.spell.id == s.id) = none)
    (hz : r.amount - 1 ≠ 0) :
    cast_spell db tgt s src du = (true,
      saveSpellAmount { db with spellDues := db.spellDues ++ [⟨tgt, s, src, du⟩] }
        { r with amount := r.amount - 1 }) := by
  simp [cast_spell, hgs, hpos, hdup, hz]

/-- Inversion for has_modifier: the artifact case comes from the artifact
lookup. -/
theorem has_modifier_artifact_inv (db : DB) (p : Nat) (m : String)
    (r : PlayerArtifactAmount) (h : has_modifier db p m = .artifact r) :
    getArtifactAmount db p m = some r := by
  unfold has_modifier at h
  split at h
  case _ r0 heq =>
    cases h
    exact heq
  case _ heq =>
    split at h <;> cases h

/-- Claim C6: the amount invariant — every persisted artifact / spell amount
record holds at least 1 — is preserved by use_modifier, give_modifier,
add_spell and cast_spell, for every choice of arguments: a record whose
amount would reach 0 is deleted rather than stored with amount 0. -/
theorem amount_invariant_preserved (db : DB) (god : String → Nat → Artifact)
    (p : Nat) (m : String) (a : Int) (s : Spell) (src tgt du : Nat)
    (h : wfAmounts db) :
    wfAmounts (use_modifier db p m a).db ∧
    wfAmounts (give_modifier god db p m a).db ∧
    wfAmounts (add_spell db p s) ∧
    wfAmounts (cast_spell db tgt s src du).2 := by
  refine ⟨?_, ?_, ?_, ?_⟩
  · cases hmr : has_modifier db p m with
    | artifact r =>
      have hga := has_modifier_artifact_inv db p m r hmr
      have hr1 : 1 ≤ r.amount := h.1 r (List.mem_of_find?_eq_some hga)
      by_cases hlt : a > r.amount
      · have hstep : use_modifier db p m a = .exn .insufficientAmount db := by
          simp [use_modifier, hmr, hlt]
        rw [hstep]
        exact h
      · by_cases hz : r.amount - a = 0
        · rw [use_modifier_delete_step db p m a r hga hlt hz]
          exact wfAmounts_delete_artifact db _ h
        · rw [use_modifier_save_step db p m a r hga hlt hz]
          refine wfAmounts_save_artifact db _ h ?_
          show 1 ≤ r.amount - a
          simp only [not_lt] at hlt
          omega
    | due d =>
      have hstep : use_modifier db p m a = .exn .attributeError db := by
        simp [use_modifier, hmr]
      rw [hstep]
      exact h
    | notFound =>
      have hstep : use_modifier db p m a = .exn .attributeError db := by
        simp [use_modifier, hmr]
      rw [hstep]
      exact h
  · by_cases ha : a ≤ 0
    · have hstep : give_modifier god db p m a = .ok none db := by
        simp [give_modifier, ha]
      rw [hstep]
      exact h
    · cases hmr : has_modifier db p m with
      | artifact r =>
        have hga := has_modifier_artifact_inv db p m r hmr
        have hr1 : 1 ≤ r.amount := h.1 r (List.mem_of_find?_eq_some hga)
        rw [give_modifier_increment_step god db p m a r ha hga]
        refine wfAmounts_save_artifact db _ h ?_
        show 1 ≤ r.amount + a
        simp only [not_le] at ha
        omega
      | due d =>
        have hstep : give_modifier god db p m a = .exn .attributeError db := by
          simp [give_modifier, ha, hmr]
        rw [hstep]
        exact h
      | notFound =>
        rw [give_modifier_create_step god db p m a ha hmr]
        refine ⟨?_, h.2⟩
        intro x hx
        rcases List.mem_append.1 hx with hx | hx
        · exact h.1 x hx
        · rcases List.mem_singleton.1 hx with rfl
          show 1 ≤ a
          simp only [not_le] at ha
          omega
  · cases hgs : getSpellAmount db p s with
    | none =>
      rw [add_spell_create_step db p s hgs]
      refine ⟨h.1, ?_⟩
      intro x hx
      rcases List.mem_append.1 hx with hx | hx
      · exact h.2 x hx
      · rcases List.mem_singleton.1 hx with rfl
        show (1 : Int) ≤ 1
        omega
    | some r =>
      have hr1 : 1 ≤ r.amount := h.2 r (List.mem_of_find?_eq_some hgs)
      rw [add_spell_increment_step db p s r hgs]
      refine wfAmounts_save_spell db _ h ?_
      show 1 ≤ r.amount + 1
      omega
  · cases hgs : getSpellAmount db src s with
    | none =>
      have hstep : cast_spell db tgt s src du = (false, db) := by
        rw [cast_spell, hgs]
      rw [hstep]
      exact h
    | some r =>
      have hr1 : 1 ≤ r.amount := h.2 r (List.mem_of_find?_eq_some hgs)
      by_cases hle : r.amount ≤ 0
      · have hstep : cast_spell db tgt s src du = (false, db) := by
          simp [cast_spell, hgs, hle]
        rw [hstep]
        exact h
      · cases hdup : db.spellDues.find?
            (fun x => x.player == tgt && x.spell.id == s.id) with
        | some d =>
          have hstep : cast_spell db tgt s src du = (false, db) := by
            simp [cast_spell, hgs, hle, hdup]
          rw [hstep]
          exact h
        | none =>
          have hdb1 : wfAmounts
              { db with spellDues := db.spellDues ++ [⟨tgt, s, src, du⟩] } := h
          by_cases hz : r.amount - 1 = 0
          · rw [cast_spell_delete_step db tgt s src du r hgs hle hdup hz]
            exact wfAmounts_delete_spell _ _ hdb1
          · rw [cast_spell_save_step db tgt s src du r hgs hle hdup hz]
            refine wfAmounts_save_spell _ _ hdb1 ?_
            show 1 ≤ r.amount - 1
            omega

/-- After saving the updated copy of the artifact record the lookup found,
the lookup returns the updated copy. -/
theorem getArtifactAmount_save (db : DB) (p : Nat) (m : String)
    (r : PlayerArtifactAmount) (a' : Int)
    (h : getArtifactAmount db p m = some r) :
    getArtifactAmount (saveArtifactAmount db { r with amount := a' }) p m
      = some { r with amount := a' } := by
  have hq := List.find?_some h
  simp only [Bool.and_eq_true, beq_iff_eq] at hq
  show (db.artifactAmounts.map
      (fun x => if x.player == r.player && x.artifact == r.artifact
        then { r with amount := a' } else x)).find?
      (fun x => x.player == p && x.artifact.name == m) = some { r with amount := a' }
  refine find?_map_if _ _ _ db.artifactAmounts r h (by simp) ?_ ?_
  · show (r.player == p && r.artifact.name == m) = true
    simp [hq.1, hq.2]
  · intro x hcx
    simp only [Bool.and_eq_true, beq_iff_eq] at hcx ⊢
    exact ⟨hcx.1.trans hq.1, (congrArg Artifact.name hcx.2).trans hq.2⟩

/-- After saving the updated copy of the spell record the lookup found, the
lookup returns the updated copy. -/
theorem getSpellAmount_save (db : DB) (src : Nat) (s : Spell)
    (r : PlayerSpellAmount) (a' : Int)
    (h : getSpellAmount db src s = some r) :
    getSpellAmount (saveSpellAmount db { r with amount := a' }) src s
      = some { r with amount := a' } := by
  have hq := List.find?_some h
  simp only [Bool.and_eq_true, beq_iff_eq] at hq
  show (db.spellAmounts.map
      (fun x => if x.player == r.player && x.spell.id == r.spell.id
        then { r with amount := a' } else x)).find?
      (fun x => x.player == src && x.spell.id == s.id) = some { r with amount := a' }
  refine find?_map_if _ _ _ db.spellAmounts r h (by simp) ?_ ?_
  · show (r.player == src && r.spell.id == s.id) = true
    simp [hq.1, hq.2]
  · intro x hcx
    simp only [Bool.and_eq_true, beq_iff_eq] at hcx ⊢
    exact ⟨hcx.1.trans hq.1, hcx.2.trans hq.2⟩

/-- After deleting the record the lookup found (with any amount field), the
lookup fails. -/
theorem getSpellAmount_delete (db : DB) (src : Nat) (s : Spell)
    (r : PlayerSpellAmount) (a' : Int)
    (h : getSpellAmount db src s = some r) :
    getSpellAmount (deleteSpellAmount db { r with amount := a' }) src s = none := by
  have hq := List.find?_some h
  simp only [Bool.and_eq_true, beq_iff_eq] at hq
  show (db.spellAmounts.filter
      (fun x => !(x.player == r.player && x.spell.id == r.spell.id))).find?
      (fun x => x.player == src && x.spell.id == s.id) = none
  apply find?_filter_out
  intro x hqx
  simp only [Bool.and_eq_true, beq_iff_eq] at hqx ⊢
  exact ⟨hqx.1.trans hq.1.symm, hqx.2.trans hq.2.symm⟩

/-- Witness for C6 at a concrete input. -/
theorem amount_invariant_preserved_witness :
    wfAmounts dbFrostStockDue ∧
    (wfAmounts (use_modifier dbFrostStockDue 2 "frost" 1).db ∧
      wfAmounts (give_modifier godStd dbFrostStockDue 2 "frost" 1).db ∧
      wfAmounts (add_spell dbFrostStockDue 2 sFrost) ∧
      wfAmounts (cast_spell dbFrostStockDue 3 sFrost 2 10).2) :=
  ⟨by decide, amount_invariant_preserved dbFrostStockDue godStd 2 "frost" 1
    sFrost 2 3 10 (by decide)⟩

/-- Claim C4: when the source holds n ≥ 1 of the spell and the create
succeeds (the target has no active due record for it), cast_spell returns
true, appends exactly one due record carrying the target, spell, source and
expiry, and leaves the source holding n − 1 — deleting the source's
collection record when n − 1 = 0. -/
theorem cast_spell_success (db : DB) (tgt : Nat) (s : Spell) (src du : Nat)
    (r : PlayerSpellAmount) (h1 : getSpellAmount db src s = some r)
    (hpos : 1 ≤ r.amount)
    (h2 : db.spellDues.find? (fun x => x.player == tgt && x.spell.id == s.id) = none) :
    (cast_spell db tgt s src du).1 = true ∧
    (cast_spell db tgt s src du).2.spellDues = db.spellDues ++ [⟨tgt, s, src, du⟩] ∧
    spellHolding (cast_spell db tgt s src du).2 src s = r.amount - 1 ∧
    (r.amount = 1 → getSpellAmount (cast_spell db tgt s src du).2 src s = none) := by
  have hle : ¬r.amount ≤ 0 := by omega
  have h1b : getSpellAmount
      { db with spellDues := db.spellDues ++ [⟨tgt, s, src, du⟩] } src s = some r := h1
  by_cases hz : r.amount - 1 = 0
  · rw [cast_spell_delete_step db tgt s src du r h1 hle h2 hz]
    have hd := getSpellAmount_delete
      { db with spellDues := db.spellDues ++ [⟨tgt, s, src, du⟩] } src s r
      (r.amount - 1) h1b
    refine ⟨rfl, rfl, ?_, fun _ => hd⟩
    rw [spellHolding, hd]
    show (0 : Int) = r.amount - 1
    omega
  · rw [cast_spell_save_step db tgt s src du r h1 hle h2 hz]
    have hs := getSpellAmount_save
      { db with spellDues := db.spellDues ++ [⟨tgt, s, src, du⟩] } src s r
      (r.amount - 1) h1b
    refine ⟨rfl, rfl, ?_, fun h1eq => absurd (by omega : r.amount - 1 = 0) hz⟩
    rw [spellHolding, hs]

/-- Witness for C4 at a concrete input. -/
theorem cast_spell_success_witness :
    getSpellAmount dbFrostStock 2 sFrost = some ⟨2, sFrost, 1⟩ ∧
    (1 : Int) ≤ 1 ∧
    dbFrostStock.spellDues.find?
      (fun x => x.player == 3 && x.spell.id == sFrost.id) = none ∧
    ((cast_spell dbFrostStock 3 sFrost 2 10).1 = true ∧
      (cast_spell dbFrostStock 3 sFrost 2 10).2.spellDues =
        dbFrostStock.spellDues ++ [⟨3, sFrost, 2, 10⟩] ∧
      spellHolding (cast_spell dbFrostStock 3 sFrost 2 10).2 2 sFrost =
        (⟨2, sFrost, 1⟩ : PlayerSpellAmount).amount - 1 ∧
      ((⟨2, sFrost, 1⟩ : PlayerSpellAmount).amount = 1 →
        getSpellAmount (cast_spell dbFrostStock 3 sFrost 2 10).2 2 sFrost = none)) :=
  ⟨by decide, by decide, by decide,
    cast_spell_success dbFrostStock 3 sFrost 2 10 ⟨2, sFrost, 1⟩
      (by decide) (by decide) (by decide)⟩

/-- Claim C3, counterexample: for a player whose only match for the name is
an active spell-due record, the prior holding is zero yet give_modifier does
not grant (it raises an AttributeError), and after give-then-use
`has_modifier` still reports the spell-due record rather than not-found. -/
theorem give_then_use_cex :
    artifactHolding dbFrostDue 7 "frost" = 0 ∧
    give_modifier godStd dbFrostDue 7 "frost" 1 = .exn .attributeError dbFrostDue ∧
    has_modifier
      (use_modifier (give_modifier godStd dbFrostDue 7 "frost" 1).db 7 "frost" 1).db
      7 "frost" ≠ .notFound := by
  decide

/-- Claim C3, amended: for a player with no active spell-due record matching
m, starting from a state satisfying the amount invariant, and with the
external artifact lookup resolving m to an artifact named m, give_modifier(m, a)
with a > 0 followed by use_modifier(m, a) succeeds and restores the
player's artifact holding of m to its prior value; when that prior holding is
zero the amount record is removed and has_modifier reports not-found. -/
theorem give_then_use_roundtrip (god : String → Nat → Artifact) (db : DB)
    (p : Nat) (m : String) (a : Int) (hamt : wfAmounts db)
    (hdue : getSpellDue db p m = none) (ha : 0 < a)
    (hgod : (god m p).name = m) :
    ∃ r1 db1 r2 db2,
      give_modifier god db p m a = .ok (some r1) db1 ∧
      use_modifier db1 p m a = .ok r2 db2 ∧
      artifactHolding db2 p m = artifactHolding db p m ∧
      (artifactHolding db p m = 0 → has_modifier db2 p m = .notFound) := by
  have ha' : ¬a ≤ 0 := not_le.2 ha
  cases hga : getArtifactAmount db p m with
  | none =>
    have hm : has_modifier db p m = .notFound := by
      simp [has_modifier, hga, hdue]
    have hganone : db.artifactAmounts.find?
        (fun x => x.player == p && x.artifact.name == m) = none := hga
    have hgive : give_modifier god db p m a =
        .ok (some ⟨p, god m p, a⟩)
          { db with artifactAmounts :=
              db.artifactAmounts ++ [(⟨p, god m p, a⟩ : PlayerArtifactAmount)] } :=
      give_modifier_create_step god db p m a ha' hm
    have hga1 : getArtifactAmount
        { db with artifactAmounts :=
            db.artifactAmounts ++ [(⟨p, god m p, a⟩ : PlayerArtifactAmount)] } p m
        = some ⟨p, god m p, a⟩ := by
      show (db.artifactAmounts ++ [(⟨p, god m p, a⟩ : PlayerArtifactAmount)]).find?
          (fun x => x.player == p && x.artifact.name == m) = some ⟨p, god m p, a⟩
      rw [List.find?_append, hganone]
      simp [hgod]
    have huse : use_modifier
        { db with artifactAmounts :=
            db.artifactAmounts ++ [(⟨p, god m p, a⟩ : PlayerArtifactAmount)] } p m a =
        .ok ⟨p, god m p, a - a⟩
          (deleteArtifactAmount
            { db with artifactAmounts :=
                db.artifactAmounts ++ [(⟨p, god m p, a⟩ : PlayerArtifactAmount)] }
            ⟨p, god m p, a - a⟩) :=
      use_modifier_delete_step
        { db with artifactAmounts :=
            db.artifactAmounts ++ [(⟨p, god m p, a⟩ : PlayerArtifactAmount)] }
        p m a ⟨p, god m p, a⟩ hga1 (by show ¬a > a; omega) (by show a - a = 0; omega)
    have hga2 : getArtifactAmount
        (deleteArtifactAmount
          { db with artifactAmounts :=
              db.artifactAmounts ++ [(⟨p, god m p, a⟩ : PlayerArtifactAmount)] }
          ⟨p, god m p, a - a⟩) p m = none := by
      show ((db.artifactAmounts ++ [(⟨p, god m p, a⟩ : PlayerArtifactAmount)]).filter
          (fun x => !(x.player == p && x.artifact == god m p))).find?
          (fun x => x.player == p && x.artifact.name == m) = none
      apply List.find?_eq_none.2
      intro x hx
      have hmem := List.mem_filter.1 hx
      rcases List.mem_append.1 hmem.1 with hxl | hxr
      · exact List.find?_eq_none.1 hganone x hxl
      · exfalso
        rcases List.mem_singleton.1 hxr with rfl
        have hkeep := hmem.2
        simp at hkeep
    have hdue2 : getSpellDue
        (deleteArtifactAmount
          { db with artifactAmounts :=
              db.artifactAmounts ++ [(⟨p, god m p, a⟩ : PlayerArtifactAmount)] }
          ⟨p, god m p, a - a⟩) p m = none := hdue
    have hm2 : has_modifier
        (deleteArtifactAmount
          { db with artifactAmounts :=
              db.artifactAmounts ++ [(⟨p, god m p, a⟩ : PlayerArtifactAmount)] }
          ⟨p, god m p, a - a⟩) p m = .notFound := by
      simp only [has_modifier, hga2, hdue2]
    refine ⟨⟨p, god m p, a⟩, _, _, _, hgive, huse, ?_, fun _ => hm2⟩
    simp only [artifactHolding]
    rw [hga2, hga]
  | some r0 =>
    have hr1 : 1 ≤ r0.amount := hamt.1 r0 (List.mem_of_find?_eq_some hga)
    have hgive : give_modifier god db p m a =
        .ok (some ⟨r0.player, r0.artifact, r0.amount + a⟩)
          (saveArtifactAmount db ⟨r0.player, r0.artifact, r0.amount + a⟩) :=
      give_modifier_increment_step god db p m a r0 ha' hga
    have hga1 : getArtifactAmount
        (saveArtifactAmount db ⟨r0.player, r0.artifact, r0.amount + a⟩) p m
        = some ⟨r0.player, r0.artifact, r0.amount + a⟩ :=
      getArtifactAmount_save db p m r0 (r0.amount + a) hga
    have huse : use_modifier
        (saveArtifactAmount db ⟨r0.player, r0.artifact, r0.amount + a⟩) p m a =
        .ok ⟨r0.player, r0.artifact, r0.amount + a - a⟩
          (saveArtifactAmount
            (saveArtifactAmount db ⟨r0.player, r0.artifact, r0.amount + a⟩)
            ⟨r0.player, r0.artifact, r0.amount + a - a⟩) :=
      use_modifier_save_step
        (saveArtifactAmount db ⟨r0.player, r0.artifact, r0.amount + a⟩) p m a
        ⟨r0.player, r0.artifact, r0.amount + a⟩ hga1
        (by show ¬a > r0.amount + a; omega)
        (by show r0.amount + a - a ≠ 0; omega)
    have hga2 : getArtifactAmount
        (saveArtifactAmount
          (saveArtifactAmount db ⟨r0.player, r0.artifact, r0.amount + a⟩)
          ⟨r0.player, r0.artifact, r0.amount + a - a⟩) p m
        = some ⟨r0.player, r0.artifact, r0.amount + a - a⟩ :=
      getArtifactAmount_save
        (saveArtifactAmount db ⟨r0.player, r0.artifact, r0.amount + a⟩) p m
        ⟨r0.player, r0.artifact, r0.amount + a⟩ (r0.amount + a - a) hga1
    refine ⟨_, _, _, _, hgive, huse, ?_, ?_⟩
    · simp only [artifactHolding]
      rw [hga2, hga]
      show r0.amount + a - a = r0.amount
      omega
    · intro h0
      exfalso
      simp only [artifactHolding, hga] at h0
      omega

/-- Witness for the amended C3 at a concrete input. -/
theorem give_then_use_roundtrip_witness :
    wfAmounts dbEmpty ∧ getSpellDue dbEmpty 7 "shield" = none ∧
    (0 : Int) < 2 ∧ (godStd "shield" 7).name = "shield" ∧
    (∃ r1 db1 r2 db2,
      give_modifier godStd dbEmpty 7 "shield" 2 = .ok (some r1) db1 ∧
      use_modifier db1 7 "shield" 2 = .ok r2 db2 ∧
      artifactHolding db2 7 "shield" = artifactHolding dbEmpty 7 "shield" ∧
      (artifactHolding dbEmpty 7 "shield" = 0 →
        has_modifier db2 7 "shield" = .notFound)) :=
  ⟨by decide, by decide, by decide, by decide,
    give_then_use_roundtrip godStd dbEmpty 7 "shield" 2 (by decide) (by decide)
      (by decide) (by decide)⟩

end Wouso
